import Mathlib

/-!
Verification of the vfkit command-line encoding core.

Part 1 embeds `pkg/client/cmdline.go`: the component model (bootloaders,
virtio devices, the auxiliary timeSync component), the per-variant
`ToCmdLine` renderers and the top-level `VirtualMachine.ToCmdLine` encoder.
Go's `([]string, error)` return values (where every failing path returns a
nil slice) are embedded as `Except String (List String)`.

Part 2 embeds the quote-aware list value of `pkg/cmdline`; its
implementation file is absent from the sources (only its tests are), so
those definitions are modelled from the specification's description of the
algorithm and checked against the in-tree tests.
-/

namespace Vfkit

/-- The closed set of bootloader variants of `pkg/client/cmdline.go`:
`linuxBootloader` (kernel path, kernel command line, initrd path) and
`efiBootloader` (EFI variable-store path, create flag). A Go
`Bootloader` interface value is one of these two; the possibly-nil
interface field of `VirtualMachine` is `Option Bootloader`. -/
inductive Bootloader where
  | linux (vmlinuzPath kernelCmdLine initrdPath : String)
  | efi (efiVariableStorePath : String) (createVariableStore : Bool)
deriving DecidableEq, Repr

/-- The closed set of device variants of `pkg/client/cmdline.go`.
`VirtioVsock` carries Port/SocketURL/Listen; `virtioNet`'s
`net.HardwareAddr` byte slice is a `List Nat` of byte values; the
`timeSync` component is included because Go's `VirtioDevice` is an alias
of `VMComponent`, so a timeSync value can sit in `vm.devices`. -/
inductive VirtioDevice where
  | vsock (Port : Nat) (SocketURL : String) (Listen : Bool)
  | blk (imagePath : String)
  | rng
  | net (nat : Bool) (macAddress : List Nat)
  | serial (logFile : String)
  | fs (sharedDir mountTag : String)
  | timesync (vsockPort : Nat)
deriving DecidableEq, Repr

/-- The `VirtualMachine` record of `pkg/client/cmdline.go`: vcpus (uint),
memoryBytes (uint64), possibly-nil bootloader, ordered device list. -/
structure VirtualMachine where
  vcpus : Nat
  memoryBytes : Nat
  bootloader : Option Bootloader
  devices : List VirtioDevice
deriving DecidableEq, Repr

/-- The methods `linuxBootloader.ToCmdLine` / `efiBootloader.ToCmdLine` from
`pkg/client/cmdline.go` (lines 173-206): the linux variant checks
kernel, initrd, kernel command line in that order, appending a flag/value
pair after each check; the efi variant checks the store path and builds
one `--bootloader` value string, appending `,create` when the flag is set. -/
def Bootloader.ToCmdLine : Bootloader → Except String (List String)
  | .linux vmlinuzPath kernelCmdLine initrdPath =>
    if vmlinuzPath = "" then .error "Missing kernel path"
    else if initrdPath = "" then .error "Missing initrd path"
    else if kernelCmdLine = "" then .error "Missing kernel command line"
    else .ok ["--kernel", vmlinuzPath, "--initrd", initrdPath,
              "--kernel-cmdline", kernelCmdLine]
  | .efi efiVariableStorePath createVariableStore =>
    if efiVariableStorePath = "" then .error "Missing EFI store path"
    else .ok ["--bootloader",
              "efi,variable-store=" ++ efiVariableStorePath ++
                (if createVariableStore then ",create" else "")]

/-- The lowercase hex digit for `n` (`net` package's `hexDigit` table). -/
def hexDigitChar (n : Nat) : Char :=
  if n < 10 then Char.ofNat (48 + n) else Char.ofNat (97 + (n - 10))

/-- Two lowercase hex digits of a byte value (high nibble, low nibble). -/
def byteToHex (b : Nat) : List Char :=
  [hexDigitChar (b / 16 % 16), hexDigitChar (b % 16)]

/-- Join character-list pieces with a single separator character. -/
def joinSep (sep : Char) : List (List Char) → List Char
  | [] => []
  | [x] => x
  | x :: y :: rest => x ++ sep :: joinSep sep (y :: rest)

/-- Go's `net.HardwareAddr.String`: empty for an empty address, else the
bytes as two lowercase hex digits each, joined by colons. -/
def hwAddrString (a : List Nat) : String :=
  String.mk (joinSep ':' (a.map byteToHex))

/-- The per-device `ToCmdLine` methods of `pkg/client/cmdline.go`
(lines 221-339), one match arm per variant, with the Go validation
checks and `fmt.Sprintf`/`strings.Builder` formats reproduced literally.
(The Go virtio-net message quotes the word nat; the quotes are dropped
here.) -/
def VirtioDevice.ToCmdLine : VirtioDevice → Except String (List String)
  | .vsock Port SocketURL Listen =>
    if Port = 0 ∨ SocketURL = "" then
      .error "virtio-vsock needs both a port and a socket URL"
    else
      .ok ["--device",
           "virtio-vsock,port=" ++ toString Port ++ ",socketURL=" ++ SocketURL
             ++ "," ++ (if Listen then "listen" else "connect")]
  | .blk imagePath =>
    if imagePath = "" then .error "virtio-blk needs the path to a disk image"
    else .ok ["--device", "virtio-blk,path=" ++ imagePath]
  | .rng => .ok ["--device", "virtio-rng"]
  | .net nat macAddress =>
    if nat = false then .error "virtio-net only support nat networking"
    else .ok ["--device",
              "virtio-net,nat" ++
                (if macAddress.length ≠ 0 then ",mac=" ++ hwAddrString macAddress
                 else "")]
  | .serial logFile =>
    if logFile = "" then .error "virtio-serial needs the path to the log file"
    else .ok ["--device", "virtio-serial,logFilePath=" ++ logFile]
  | .fs sharedDir mountTag =>
    if sharedDir = "" then
      .error "virtio-fs needs the path to the directory to share"
    else if mountTag ≠ "" then
      .ok ["--device",
           "virtio-fs,sharedDir=" ++ sharedDir ++ ",mountTag=" ++ mountTag]
    else .ok ["--device", "virtio-fs,sharedDir=" ++ sharedDir]
  | .timesync vsockPort =>
    .ok ["--timesync",
         if vsockPort ≠ 0 then "vsockPort=" ++ toString vsockPort else ""]

/-- The device loop of `VirtualMachine.ToCmdLine` (lines 132-138): walk
the device list in order, appending each device's tokens to the
accumulated argument list, returning the first device error unchanged. -/
def appendDevices (acc : List String) : List VirtioDevice → Except String (List String)
  | [] => .ok acc
  | dev :: rest =>
    match dev.ToCmdLine with
    | .error e => .error e
    | .ok devArgs => appendDevices (acc ++ devArgs) rest

/-- The method `VirtualMachine.ToCmdLine` (lines 112-141): start from an empty
argument list, append `--cpus`/`--memory` when non-zero, fail when the
bootloader is nil, render the bootloader, then fold over the devices. -/
def VirtualMachine.ToCmdLine (vm : VirtualMachine) : Except String (List String) :=
  let args : List String := []
  let args := if vm.vcpus ≠ 0 then args ++ ["--cpus", toString vm.vcpus] else args
  let args := if vm.memoryBytes ≠ 0 then args ++ ["--memory", toString vm.memoryBytes] else args
  match vm.bootloader with
  | none => .error "missing bootloader configuration"
  | some bootloader =>
    match bootloader.ToCmdLine with
    | .error e => .error e
    | .ok bootloaderArgs => appendDevices (args ++ bootloaderArgs) vm.devices

/-- Explicit-state reading of the Go method `(vm *VirtualMachine) ToCmdLine`:
the receiver is passed in and the post-call receiver state is returned
alongside the result. The method body (lines 112-141) only reads the
receiver's fields — it contains no assignment through `vm` — so the
post-state is the pre-state. -/
def VirtualMachine.ToCmdLineSt (vm : VirtualMachine) :
    Except String (List String) × VirtualMachine :=
  (vm.ToCmdLine, vm)

example :
    (VirtualMachine.mk 2 1024 (some (.linux "vmlinuz" "console=hvc0" "initrd"))
      [.rng]).ToCmdLine =
    .ok ["--cpus", "2", "--memory", "1024", "--kernel", "vmlinuz",
         "--initrd", "initrd", "--kernel-cmdline", "console=hvc0",
         "--device", "virtio-rng"] := by rfl

example :
    (VirtioDevice.vsock 1024 "/tmp/vsock.sock" true).ToCmdLine =
    .ok ["--device", "virtio-vsock,port=1024,socketURL=/tmp/vsock.sock,listen"] := by rfl

example : hwAddrString [18, 52, 86, 120, 154, 188] = "12:34:56:78:9a:bc" := by rfl

/-- The device loop succeeds exactly when every device renders, and then
produces the accumulator followed by each device's token block in list
order. -/
theorem appendDevices_ok (ds : List VirtioDevice) :
    ∀ (acc out : List String), appendDevices acc ds = .ok out →
      ∃ tss : List (List String),
        List.Forall₂ (fun d ts => VirtioDevice.ToCmdLine d = .ok ts) ds tss ∧
        out = acc ++ tss.flatten := by
  induction ds with
  | nil =>
    intro acc out h
    simp only [appendDevices, Except.ok.injEq] at h
    exact ⟨[], List.Forall₂.nil, by simp [h]⟩
  | cons d rest ih =>
    intro acc out h
    cases hd : d.ToCmdLine with
    | error e => simp [appendDevices, hd] at h
    | ok devArgs =>
      simp only [appendDevices, hd] at h
      obtain ⟨tss, hall, hout⟩ := ih (acc ++ devArgs) out h
      exact ⟨devArgs :: tss, List.Forall₂.cons hd hall,
        by simp [hout, List.append_assoc]⟩

/-- A device that always fails forces the whole device loop to fail. -/
theorem appendDevices_error_of_mem (d : VirtioDevice) (e : String)
    (hfail : d.ToCmdLine = .error e) :
    ∀ (ds : List VirtioDevice), d ∈ ds →
      ∀ acc, ∃ e2, appendDevices acc ds = .error e2 := by
  intro ds
  induction ds with
  | nil => intro hmem; cases hmem
  | cons a rest ih =>
    intro hmem acc
    cases ha : a.ToCmdLine with
    | error e3 => exact ⟨e3, by simp [appendDevices, ha]⟩
    | ok toks =>
      rcases List.mem_cons.mp hmem with h | h
      · subst h; rw [hfail] at ha; cases ha
      · obtain ⟨e2, h2⟩ := ih h (acc ++ toks)
        exact ⟨e2, by simp [appendDevices, ha, h2]⟩

/-- C1: a successful `VirtualMachine.ToCmdLine` returns exactly the
concatenation, in this fixed order, of the `--cpus` pair (when vcpus ≠ 0),
the `--memory` pair (when memoryBytes ≠ 0), the bootloader's rendered
tokens, and each device's rendered tokens in insertion order, with no
re-ordering, deduplication or merging of devices. -/
theorem vm_tocmdline_success_shape (vm : VirtualMachine) (out : List String)
    (h : vm.ToCmdLine = .ok out) :
    ∃ (bl : Bootloader) (blToks : List String) (tss : List (List String)),
      vm.bootloader = some bl ∧ bl.ToCmdLine = .ok blToks ∧
      List.Forall₂ (fun d ts => VirtioDevice.ToCmdLine d = .ok ts) vm.devices tss ∧
      out = (if vm.vcpus ≠ 0 then ["--cpus", toString vm.vcpus] else [])
        ++ (if vm.memoryBytes ≠ 0 then ["--memory", toString vm.memoryBytes] else [])
        ++ blToks ++ tss.flatten := by
  simp only [VirtualMachine.ToCmdLine] at h
  cases hbl : vm.bootloader with
  | none => simp [hbl] at h
  | some bl =>
    simp only [hbl] at h
    cases hb2 : bl.ToCmdLine with
    | error e => simp [hb2] at h
    | ok blToks =>
      simp only [hb2] at h
      obtain ⟨tss, hall, hout⟩ := appendDevices_ok vm.devices _ out h
      refine ⟨bl, blToks, tss, rfl, hb2, hall, ?_⟩
      by_cases hv : vm.vcpus = 0 <;> by_cases hm : vm.memoryBytes = 0 <;>
        simp [hv, hm, List.append_assoc] at hout ⊢ <;> exact hout

/-- C1 witness: the shape theorem instantiated at a concrete machine. -/
theorem vm_tocmdline_success_shape_witness :
    ∃ (bl : Bootloader) (blToks : List String) (tss : List (List String)),
      (VirtualMachine.mk 2 1024 (some (.efi "/efi/store" false))
          [.rng, .blk "/disk.img"]).bootloader = some bl ∧
      bl.ToCmdLine = .ok blToks ∧
      List.Forall₂ (fun d ts => VirtioDevice.ToCmdLine d = .ok ts)
        (VirtualMachine.mk 2 1024 (some (.efi "/efi/store" false))
          [.rng, .blk "/disk.img"]).devices tss ∧
      ["--cpus", "2", "--memory", "1024", "--bootloader",
        "efi,variable-store=/efi/store", "--device", "virtio-rng",
        "--device", "virtio-blk,path=/disk.img"] =
      (if (VirtualMachine.mk 2 1024 (some (.efi "/efi/store" false))
          [.rng, .blk "/disk.img"]).vcpus ≠ 0 then
          ["--cpus", toString (VirtualMachine.mk 2 1024
            (some (.efi "/efi/store" false)) [.rng, .blk "/disk.img"]).vcpus]
        else [])
        ++ (if (VirtualMachine.mk 2 1024 (some (.efi "/efi/store" false))
          [.rng, .blk "/disk.img"]).memoryBytes ≠ 0 then
          ["--memory", toString (VirtualMachine.mk 2 1024
            (some (.efi "/efi/store" false)) [.rng, .blk "/disk.img"]).memoryBytes]
        else [])
        ++ blToks ++ tss.flatten :=
  vm_tocmdline_success_shape
    (VirtualMachine.mk 2 1024 (some (.efi "/efi/store" false))
      [.rng, .blk "/disk.img"])
    ["--cpus", "2", "--memory", "1024", "--bootloader",
      "efi,variable-store=/efi/store", "--device", "virtio-rng",
      "--device", "virtio-blk,path=/disk.img"] (by rfl)

/-- C2: a nil bootloader fails with the missing-bootloader error no matter
which devices are attached (none is inspected); a bootloader render error
is returned unchanged; a failing device makes the whole encode fail; and a
failed encode yields no token list at all. -/
theorem vm_tocmdline_failure_semantics :
    (∀ (vcpus memoryBytes : Nat) (devs : List VirtioDevice),
        (VirtualMachine.mk vcpus memoryBytes none devs).ToCmdLine =
          .error "missing bootloader configuration")
  ∧ (∀ (vm : VirtualMachine) (bl : Bootloader) (e : String),
        vm.bootloader = some bl → bl.ToCmdLine = .error e →
        vm.ToCmdLine = .error e)
  ∧ (∀ (vm : VirtualMachine) (d : VirtioDevice) (e : String),
        d ∈ vm.devices → d.ToCmdLine = .error e →
        ∃ e2, vm.ToCmdLine = .error e2)
  ∧ (∀ (vm : VirtualMachine) (e : String), vm.ToCmdLine = .error e →
        ∀ toks, vm.ToCmdLine ≠ .ok toks) := by
  refine ⟨?_, ?_, ?_, ?_⟩
  · intro vcpus memoryBytes devs
    simp [VirtualMachine.ToCmdLine]
  · intro vm bl e h1 h2
    simp [VirtualMachine.ToCmdLine, h1, h2]
  · intro vm d e hmem hfail
    cases hbl : vm.bootloader with
    | none =>
      exact ⟨"missing bootloader configuration",
        by simp [VirtualMachine.ToCmdLine, hbl]⟩
    | some bl =>
      cases hb2 : bl.ToCmdLine with
      | error e3 => exact ⟨e3, by simp [VirtualMachine.ToCmdLine, hbl, hb2]⟩
      | ok blToks =>
        simp only [VirtualMachine.ToCmdLine, hbl, hb2]
        exact appendDevices_error_of_mem d e hfail vm.devices hmem _
  · intro vm e h toks hc
    rw [h] at hc
    cases hc

/-- C2 witness: the failure semantics applied to a concrete nil-bootloader
machine carrying a device that would itself fail to render. -/
theorem vm_tocmdline_failure_semantics_witness :
    (VirtualMachine.mk 1 512 none [.blk ""]).ToCmdLine =
      .error "missing bootloader configuration" :=
  vm_tocmdline_failure_semantics.1 1 512 [.blk ""]

/-- C9: the encoder never mutates the machine — the post-call receiver
state equals the pre-call state, and encoding twice gives equal results. -/
theorem vm_tocmdline_nondestructive (vm : VirtualMachine) :
    vm.ToCmdLineSt.2 = vm ∧
    (vm.ToCmdLineSt.2).ToCmdLineSt.1 = vm.ToCmdLineSt.1 :=
  ⟨rfl, rfl⟩

/-- C7: a virtio-vsock device fails with the missing-required-field error
exactly when its port is zero or its socket URL is empty, and otherwise
renders the two tokens `--device` and
`virtio-vsock,port=N,socketURL=S,{listen|connect}`. -/
theorem vsock_tocmdline_spec (Port : Nat) (SocketURL : String) (Listen : Bool) :
    ((VirtioDevice.vsock Port SocketURL Listen).ToCmdLine =
        .error "virtio-vsock needs both a port and a socket URL" ↔
      (Port = 0 ∨ SocketURL = "")) ∧
    (Port ≠ 0 → SocketURL ≠ "" →
      (VirtioDevice.vsock Port SocketURL Listen).ToCmdLine =
        .ok ["--device",
             "virtio-vsock,port=" ++ toString Port ++ ",socketURL=" ++ SocketURL
               ++ "," ++ (if Listen then "listen" else "connect")]) := by
  by_cases h : Port = 0 ∨ SocketURL = ""
  · constructor
    · simp [VirtioDevice.ToCmdLine, h]
    · intro hp hs
      rcases h with h | h
      · exact absurd h hp
      · exact absurd h hs
  · constructor
    · simp [VirtioDevice.ToCmdLine, h]
    · intro _ _
      simp [VirtioDevice.ToCmdLine, h]

/-- C7 witness: a concrete valid vsock device and a concrete port-0 one. -/
theorem vsock_tocmdline_spec_witness :
    (VirtioDevice.vsock 1024 "/tmp/vsock.sock" true).ToCmdLine =
      .ok ["--device",
           "virtio-vsock,port=" ++ toString 1024 ++ ",socketURL=" ++ "/tmp/vsock.sock"
             ++ "," ++ (if true then "listen" else "connect")] :=
  (vsock_tocmdline_spec 1024 "/tmp/vsock.sock" true).2 (by decide) (by decide)

/-- C8: an absent virtio-fs mount tag is omitted from the rendered value
entirely (concretely, sharedDir=/host/share gives
`virtio-fs,sharedDir=/host/share`), while a timeSync component with
vsockPort = 0 renders `--timesync` with an empty value string and with
vsockPort = N ≠ 0 renders the value `vsockPort=N`. -/
theorem optional_field_rendering :
    (∀ dir : String, dir ≠ "" →
      (VirtioDevice.fs dir "").ToCmdLine =
        .ok ["--device", "virtio-fs,sharedDir=" ++ dir])
  ∧ ((VirtioDevice.fs "/host/share" "").ToCmdLine =
      .ok ["--device", "virtio-fs,sharedDir=/host/share"])
  ∧ ((VirtioDevice.timesync 0).ToCmdLine = .ok ["--timesync", ""])
  ∧ (∀ n : Nat, n ≠ 0 →
      (VirtioDevice.timesync n).ToCmdLine =
        .ok ["--timesync", "vsockPort=" ++ toString n]) := by
  refine ⟨?_, by rfl, by rfl, ?_⟩
  · intro dir hdir
    simp [VirtioDevice.ToCmdLine, hdir]
  · intro n hn
    simp [VirtioDevice.ToCmdLine, hn]

/-- C8 witness: the optional-field theorem at concrete inputs. -/
theorem optional_field_rendering_witness :
    (VirtioDevice.fs "/host/share2" "").ToCmdLine =
      .ok ["--device", "virtio-fs,sharedDir=" ++ "/host/share2"] ∧
    (VirtioDevice.timesync 1234).ToCmdLine =
      .ok ["--timesync", "vsockPort=" ++ toString 1234] :=
  ⟨optional_field_rendering.1 "/host/share2" (by decide),
   optional_field_rendering.2.2.2 1234 (by decide)⟩

/-- C6 counterexample: the linux bootloader renders successfully into six
tokens under three flag names (`--kernel`, `--initrd`, `--kernel-cmdline`),
not into a two-token `--bootloader` pair, so "every bootloader renders to
exactly two tokens" fails at this concrete input. -/
theorem bootloader_two_token_counterexample :
    (Bootloader.linux "vmlinuz" "console=hvc0" "initrd").ToCmdLine =
      .ok ["--kernel", "vmlinuz", "--initrd", "initrd",
           "--kernel-cmdline", "console=hvc0"] ∧
    ¬ ∃ flag value : String,
        (Bootloader.linux "vmlinuz" "console=hvc0" "initrd").ToCmdLine =
          .ok [flag, value] := by
  refine ⟨by rfl, ?_⟩
  rintro ⟨flag, value, h⟩
  simp [Bootloader.ToCmdLine] at h

/-- C6 amended: every device renders, on success, into exactly two tokens
— a flag name and one comma-joined value whose first component is the
variant tag, with key=value fields in fixed order and boolean-style
fields bare — the flag being `--device` (`--timesync` for the timeSync
component); the EFI bootloader renders the two tokens `--bootloader` and
`efi,variable-store=P[,create]`; the Linux bootloader instead renders six
tokens, the three flag/value pairs `--kernel P --initrd P
--kernel-cmdline S`. -/
theorem component_token_formats :
    (∀ (d : VirtioDevice) (out : List String),
        d.ToCmdLine = .ok out → out.length = 2)
  ∧ (∀ (p : String) (c : Bool), p ≠ "" →
        (Bootloader.efi p c).ToCmdLine =
          .ok ["--bootloader",
               "efi,variable-store=" ++ p ++ (if c then ",create" else "")])
  ∧ (∀ (k cl i : String), k ≠ "" → cl ≠ "" → i ≠ "" →
        (Bootloader.linux k cl i).ToCmdLine =
          .ok ["--kernel", k, "--initrd", i, "--kernel-cmdline", cl])
  ∧ (∀ (P : Nat) (S : String) (L : Bool), P ≠ 0 → S ≠ "" →
        (VirtioDevice.vsock P S L).ToCmdLine =
          .ok ["--device",
               "virtio-vsock,port=" ++ toString P ++ ",socketURL=" ++ S
                 ++ "," ++ (if L then "listen" else "connect")])
  ∧ (∀ p : String, p ≠ "" →
        (VirtioDevice.blk p).ToCmdLine = .ok ["--device", "virtio-blk,path=" ++ p])
  ∧ (VirtioDevice.rng.ToCmdLine = .ok ["--device", "virtio-rng"])
  ∧ (∀ mac : List Nat,
        (VirtioDevice.net true mac).ToCmdLine =
          .ok ["--device",
               "virtio-net,nat" ++
                 (if mac.length ≠ 0 then ",mac=" ++ hwAddrString mac else "")])
  ∧ (∀ p : String, p ≠ "" →
        (VirtioDevice.serial p).ToCmdLine =
          .ok ["--device", "virtio-serial,logFilePath=" ++ p])
  ∧ (∀ dir tag : String, dir ≠ "" → tag ≠ "" →
        (VirtioDevice.fs dir tag).ToCmdLine =
          .ok ["--device",
               "virtio-fs,sharedDir=" ++ dir ++ ",mountTag=" ++ tag])
  ∧ (∀ n : Nat,
        (VirtioDevice.timesync n).ToCmdLine =
          .ok ["--timesync",
               if n ≠ 0 then "vsockPort=" ++ toString n else ""]) := by
  refine ⟨?_, ?_, ?_, ?_, ?_, by rfl, ?_, ?_, ?_, ?_⟩
  · intro d out h
    cases d with
    | vsock P S L =>
      simp only [VirtioDevice.ToCmdLine] at h
      split at h
      · cases h
      · cases Except.ok.inj h; rfl
    | blk p =>
      simp only [VirtioDevice.ToCmdLine] at h
      split at h
      · cases h
      · cases Except.ok.inj h; rfl
    | rng =>
      simp only [VirtioDevice.ToCmdLine] at h
      cases Except.ok.inj h; rfl
    | net nat mac =>
      simp only [VirtioDevice.ToCmdLine] at h
      split at h
      · cases h
      · cases Except.ok.inj h; rfl
    | serial p =>
      simp only [VirtioDevice.ToCmdLine] at h
      split at h
      · cases h
      · cases Except.ok.inj h; rfl
    | fs dir tag =>
      simp only [VirtioDevice.ToCmdLine] at h
      split at h
      · cases h
      · split at h
        · cases Except.ok.inj h; rfl
        · cases Except.ok.inj h; rfl
    | timesync n =>
      simp only [VirtioDevice.ToCmdLine] at h
      cases Except.ok.inj h; rfl
  · intro p c hp; simp [Bootloader.ToCmdLine, hp]
  · intro k cl i hk hcl hi; simp [Bootloader.ToCmdLine, hk, hcl, hi]
  · intro P S L hP hS
    have : ¬ (P = 0 ∨ S = "") := by simp [hP, hS]
    simp [VirtioDevice.ToCmdLine, this]
  · intro p hp; simp [VirtioDevice.ToCmdLine, hp]
  · intro mac; simp [VirtioDevice.ToCmdLine]
  · intro p hp; simp [VirtioDevice.ToCmdLine, hp]
  · intro dir tag hdir htag; simp [VirtioDevice.ToCmdLine, hdir, htag]
  · intro n; simp [VirtioDevice.ToCmdLine]

/-- C6 amended witness: the format theorem applied at concrete inputs. -/
theorem component_token_formats_witness :
    (Bootloader.efi "/efi/vars" true).ToCmdLine =
      .ok ["--bootloader",
           "efi,variable-store=" ++ "/efi/vars" ++ (if true then ",create" else "")] ∧
    (VirtioDevice.serial "/tmp/log").ToCmdLine =
      .ok ["--device", "virtio-serial,logFilePath=" ++ "/tmp/log"] :=
  ⟨component_token_formats.2.1 "/efi/vars" true (by decide),
   component_token_formats.2.2.2.2.2.2.2.1 "/tmp/log" (by decide)⟩

/-- The hex value of one character (Go `net` package's `xtoi` on a single
digit, as used through `xtoi2`). -/
def hexDigitVal (c : Char) : Option Nat :=
  if '0' ≤ c ∧ c ≤ '9' then some (c.toNat - 48)
  else if 'a' ≤ c ∧ c ≤ 'f' then some (c.toNat - 97 + 10)
  else if 'A' ≤ c ∧ c ≤ 'F' then some (c.toNat - 65 + 10)
  else none

/-- The colon/dash loop of Go's `net.ParseMAC`: n two-hex-digit groups,
each group but the last followed by the separator character (the check
`xtoi2(s[x:], s[2])` performs on the byte after each group). -/
def parseHexPairs (sep : Char) : Nat → List Char → Option (List Nat)
  | 1, [c1, c2] =>
    match hexDigitVal c1, hexDigitVal c2 with
    | some h1, some h2 => some [16 * h1 + h2]
    | _, _ => none
  | n + 2, c1 :: c2 :: c3 :: rest =>
    match hexDigitVal c1, hexDigitVal c2 with
    | some h1, some h2 =>
      if c3 = sep then
        match parseHexPairs sep (n + 1) rest with
        | some bs => some ((16 * h1 + h2) :: bs)
        | none => none
      else none
    | _, _ => none
  | _, _ => none

/-- The dot-separated loop of Go's `net.ParseMAC`: m four-hex-digit groups
(two bytes each), each group but the last followed by a dot. -/
def parseHexQuads : Nat → List Char → Option (List Nat)
  | 1, [c1, c2, c3, c4] =>
    match hexDigitVal c1, hexDigitVal c2, hexDigitVal c3, hexDigitVal c4 with
    | some h1, some h2, some h3, some h4 => some [16 * h1 + h2, 16 * h3 + h4]
    | _, _, _, _ => none
  | m + 2, c1 :: c2 :: c3 :: c4 :: c5 :: rest =>
    match hexDigitVal c1, hexDigitVal c2, hexDigitVal c3, hexDigitVal c4 with
    | some h1, some h2, some h3, some h4 =>
      if c5 = '.' then
        match parseHexQuads (m + 1) rest with
        | some bs => some ((16 * h1 + h2) :: (16 * h3 + h4) :: bs)
        | none => none
      else none
    | _, _, _, _ => none
  | _, _ => none

/-- Go's `net.ParseMAC` (standard library, the parser `VirtioNetNew`
delegates to): an address shorter than 14 bytes is invalid; `s[2]` being a
colon or dash selects two-digit groups with that separator, with
`(len+1) % 3 = 0` and `(len+1)/3 ∈ {6,8,20}` bytes; otherwise `s[4]`
being a dot selects four-digit groups with `(len+1) % 5 = 0` and
`2*(len+1)/5 ∈ {6,8,20}` bytes; `none` is Go's "invalid MAC address"
error. -/
def ParseMAC (s : String) : Option (List Nat) :=
  let cs := s.toList
  if cs.length < 14 then none
  else
    match cs[2]?, cs[4]? with
    | some c2, some c4 =>
      if c2 = ':' ∨ c2 = '-' then
        if (cs.length + 1) % 3 = 0 then
          let n := (cs.length + 1) / 3
          if n = 6 ∨ n = 8 ∨ n = 20 then parseHexPairs c2 n cs else none
        else none
      else if c4 = '.' then
        if (cs.length + 1) % 5 = 0 then
          let n := 2 * ((cs.length + 1) / 5)
          if n = 6 ∨ n = 8 ∨ n = 20 then parseHexQuads (n / 2) cs else none
        else none
      else none
    | _, _ => none

/-- The constructor `VirtioNetNew` (`pkg/client/cmdline.go` lines 261-274): an empty MAC
string leaves the hardware address nil; a non-empty one is parsed with
`net.ParseMAC`, propagating its error; the device is always built with
nat = true. -/
def VirtioNetNew (macAddress : String) : Except String VirtioDevice :=
  if macAddress = "" then .ok (.net true [])
  else
    match ParseMAC macAddress with
    | none => .error "invalid MAC address"
    | some hwAddr => .ok (.net true hwAddr)

example : ParseMAC "12:34:56:78:9a:bc" = some [18, 52, 86, 120, 154, 188] := by rfl
example : ParseMAC "1234.5678.9abc" = some [18, 52, 86, 120, 154, 188] := by rfl
example : ParseMAC "12:34:56:78:9a" = none := by rfl
example : ParseMAC "hello world!!!" = none := by rfl

/-- A successful colon/dash group parse yields a non-empty byte list. -/
theorem parseHexPairs_ne_nil (sep : Char) (n : Nat) (cs : List Char)
    (bs : List Nat) (h : parseHexPairs sep n cs = some bs) : bs ≠ [] := by
  unfold parseHexPairs at h
  repeat' split at h
  all_goals (cases h <;> simp)

/-- A successful dot group parse yields a non-empty byte list. -/
theorem parseHexQuads_ne_nil (m : Nat) (cs : List Char)
    (bs : List Nat) (h : parseHexQuads m cs = some bs) : bs ≠ [] := by
  unfold parseHexQuads at h
  repeat' split at h
  all_goals (cases h <;> simp)

/-- A successfully parsed MAC address has at least one byte (Go only
accepts 6-, 8- or 20-byte addresses). -/
theorem ParseMAC_ne_nil (s : String) (bs : List Nat)
    (h : ParseMAC s = some bs) : bs ≠ [] := by
  simp only [ParseMAC] at h
  repeat' split at h
  all_goals first
    | cases h
    | exact parseHexPairs_ne_nil _ _ _ _ h
    | exact parseHexQuads_ne_nil _ _ _ h

/-- C10: `VirtioNetNew` fails exactly on a non-empty MAC string that fails
hardware-address parsing; every device it returns has nat = true, its
render never hits the non-NAT error branch, and it renders to
`--device virtio-net,nat` for an empty MAC string and to
`--device virtio-net,nat,mac=ADDR` otherwise. -/
theorem virtionet_new_spec (s : String) :
    ((∃ e, VirtioNetNew s = .error e) ↔ (s ≠ "" ∧ ParseMAC s = none)) ∧
    (∀ d : VirtioDevice, VirtioNetNew s = .ok d →
      ∃ mac : List Nat, d = .net true mac ∧
        d.ToCmdLine = .ok ["--device",
          if s = "" then "virtio-net,nat"
          else "virtio-net,nat,mac=" ++ hwAddrString mac]) := by
  by_cases hs : s = ""
  · subst hs
    have h2 : VirtioNetNew "" = .ok (.net true []) := by rfl
    refine ⟨⟨?_, ?_⟩, ?_⟩
    · rintro ⟨e, he⟩
      rw [h2] at he
      cases he
    · rintro ⟨hne, -⟩
      exact absurd rfl hne
    · intro d h
      cases Except.ok.inj (h2.symm.trans h)
      exact ⟨[], rfl, by rfl⟩
  · cases hp : ParseMAC s with
    | none =>
      have h2 : VirtioNetNew s = .error "invalid MAC address" := by
        simp only [VirtioNetNew, if_neg hs, hp]
      refine ⟨⟨?_, ?_⟩, ?_⟩
      · intro _; exact ⟨hs, rfl⟩
      · intro _; exact ⟨"invalid MAC address", h2⟩
      · intro d h
        rw [h2] at h
        cases h
    | some hw =>
      have h2 : VirtioNetNew s = .ok (.net true hw) := by
        simp only [VirtioNetNew, if_neg hs, hp]
      refine ⟨⟨?_, ?_⟩, ?_⟩
      · rintro ⟨e, he⟩
        rw [h2] at he
        cases he
      · rintro ⟨-, hnone⟩
        cases hnone
      · intro d h
        cases Except.ok.inj (h2.symm.trans h)
        refine ⟨hw, rfl, ?_⟩
        have hne : hw ≠ [] := ParseMAC_ne_nil s hw hp
        have hlen : hw.length ≠ 0 := by simpa using hne
        rw [if_neg hs]
        simp only [VirtioDevice.ToCmdLine, if_neg (by decide : ¬(true = false)),
          if_pos hlen]
        rw [← String.append_assoc,
          show ("virtio-net,nat" : String) ++ ",mac=" = "virtio-net,nat,mac="
            from by decide]

/-- C10 witness: the theorem applied at a concrete parsable MAC string. -/
theorem virtionet_new_spec_witness :
    ∃ mac : List Nat, VirtioDevice.net true [18, 52, 86, 120, 154, 188] = .net true mac ∧
      (VirtioDevice.net true [18, 52, 86, 120, 154, 188]).ToCmdLine =
        .ok ["--device",
          if "12:34:56:78:9a:bc" = "" then "virtio-net,nat"
          else "virtio-net,nat,mac=" ++ hwAddrString mac] :=
  (virtionet_new_spec "12:34:56:78:9a:bc").2
    (.net true [18, 52, 86, 120, 154, 188]) (by rfl)

/-!
Part 2: the quote-aware list value (`stringSliceValue`) of `pkg/cmdline`.
Its implementation file is not among the sources — only
`string_slice_test.go` is — so the definitions below are modelled from
the specification's description of the algorithm (spec §3 "ListValue" and
§4.3) and validated against the expectations of the in-tree tests.
-/

/-- Modelled from the spec: the splitting scan of `stringSliceValue.Set`
(the implementation file `string_slice.go` is absent from src). Scan left
to right; a double quote toggles the inside-quotes state (and stays part
of the current piece); a comma outside quotes ends the current piece; an
unterminated quote stays inside-quotes through the end of input. -/
def splitCore : List Char → Bool → List Char → List (List Char)
  | [], _, cur => [cur.reverse]
  | c :: rest, inQ, cur =>
    if c = '"' then splitCore rest (!inQ) (c :: cur)
    else if c = ',' ∧ inQ = false then cur.reverse :: splitCore rest false []
    else splitCore rest inQ (c :: cur)

/-- Modelled from the spec: after splitting, an element wholly wrapped in
a single pair of double quotes — first and last characters are quotes with
no quote in between — has exactly those two enclosing quotes stripped; any
other quotes are left untouched. -/
def unquoteChars (cs : List Char) : List Char :=
  if 2 ≤ cs.length ∧ cs.head? = some '"' ∧ cs.getLast? = some '"' ∧
      '"' ∉ (cs.drop 1).dropLast then
    (cs.drop 1).dropLast
  else cs

/-- Modelled from the spec: parsing one raw `Set` argument — the empty
string yields zero elements; otherwise quote-aware comma splitting
followed by unwrapping of wholly-quoted elements. -/
def parseRaw (s : String) : List String :=
  if s.toList = [] then []
  else (splitCore s.toList false []).map (fun cs => String.mk (unquoteChars cs))

/-- Modelled from the spec: the list-value state — the ordered contents
plus the changed flag recording whether any `Set` has run (spec §3: once
any `Set` has executed, the default installed via `Replace` before
parsing is fully discarded). -/
structure stringSliceValue where
  value : List String
  changed : Bool
deriving DecidableEq, Repr

/-- Modelled from the spec: `Set` parses the raw flag occurrence; the
first `Set` replaces the pre-parse default (spec §3 invariant, matching
TestSSWithDefault), subsequent ones append in call order. -/
def stringSliceValue.Set (s : stringSliceValue) (raw : String) : stringSliceValue :=
  { value := if s.changed then s.value ++ parseRaw raw else parseRaw raw,
    changed := true }

/-- Modelled from the spec: `Replace` discards prior contents and installs
the given values verbatim (used to seed defaults before parsing). -/
def stringSliceValue.Replace (s : stringSliceValue) (vs : List String) : stringSliceValue :=
  { s with value := vs }

/-- Modelled from the spec: `GetSlice` returns the current contents. -/
def stringSliceValue.GetSlice (s : stringSliceValue) : List String := s.value

/-- Modelled from the spec: string rendering re-quotes an element
containing a comma. -/
def quoteElemChars (e : List Char) : List Char :=
  if ',' ∈ e then '"' :: e ++ ['"'] else e

/-- Modelled from the spec: string rendering for help/debug display —
re-quote elements containing commas, then join with commas. -/
def renderLV (vs : List String) : String :=
  String.mk (joinSep ',' (vs.map (fun e => quoteElemChars e.toList)))

example : parseRaw "one,two,4,3" = ["one", "two", "4", "3"] := by decide
example : parseRaw "\"one,two\"" = ["one,two"] := by decide
example :
    (((stringSliceValue.mk [] false).Set "one,two").Set "three").GetSlice =
      ["one", "two", "three"] := by decide

/-- C3: `Set` on a fresh value holds exactly the parse of its argument;
quote-aware splitting keeps commas inside quotes, strips only a single
wholly-enclosing pair of quotes (`a="one"` and `"two"=b` stay literal,
`"four,five"` is unwrapped), and the empty input yields zero elements. -/
theorem listvalue_splitting_algorithm :
    (∀ raw : String,
      ((stringSliceValue.mk [] false).Set raw).GetSlice = parseRaw raw)
  ∧ parseRaw "a=\"one\",\"two\"=b,three" = ["a=\"one\"", "\"two\"=b", "three"]
  ∧ parseRaw "\"four,five\",six" = ["four,five", "six"]
  ∧ parseRaw "" = [] :=
  ⟨fun _ => rfl, by decide, by decide, rfl⟩

/-- C4 counterexample: on a fresh list value, Replace(["default","values"])
followed by Set("one,two,4,3") leaves exactly the parsed elements
["one","two","4","3"], not the replaced values followed by the parsed
ones — the first Set discards the Replace-installed default (exactly what
TestSSWithDefault expects). -/
theorem set_discards_default_counterexample :
    (((stringSliceValue.mk [] false).Replace ["default", "values"]).Set
        "one,two,4,3").GetSlice = ["one", "two", "4", "3"] ∧
    (((stringSliceValue.mk [] false).Replace ["default", "values"]).Set
        "one,two,4,3").GetSlice ≠
      ["default", "values"] ++ parseRaw "one,two,4,3" :=
  ⟨by decide, by decide⟩

/-- C4 amended: on a value on which no `Set` has yet run, `Replace(vs)`
followed by zero `Set` calls leaves exactly vs; `Replace(vs)` followed by
one `Set(raw)` leaves exactly parse(raw) — the first `Set` discards the
Replace-installed default rather than appending to it; and two successive
`Set` calls append both batches in call order, e.g. Set("one,two") then
Set("three") yields ["one","two","three"]. -/
theorem replace_set_semantics (s : stringSliceValue) (vs : List String)
    (raw raw1 raw2 : String) (h : s.changed = false) :
    (s.Replace vs).GetSlice = vs ∧
    ((s.Replace vs).Set raw).GetSlice = parseRaw raw ∧
    ((s.Set raw1).Set raw2).GetSlice = parseRaw raw1 ++ parseRaw raw2 ∧
    (((stringSliceValue.mk [] false).Set "one,two").Set "three").GetSlice =
      ["one", "two", "three"] := by
  refine ⟨rfl, ?_, ?_, by decide⟩
  · simp [stringSliceValue.Set, stringSliceValue.Replace,
      stringSliceValue.GetSlice, h]
  · simp [stringSliceValue.Set, stringSliceValue.GetSlice, h]

/-- C4 amended witness: the semantics applied on a concrete fresh value. -/
theorem replace_set_semantics_witness :
    ((stringSliceValue.mk [] false).Replace ["default"]).GetSlice = ["default"] ∧
    (((stringSliceValue.mk [] false).Replace ["default"]).Set "x").GetSlice =
      parseRaw "x" ∧
    (((stringSliceValue.mk [] false).Set "one,two").Set "three").GetSlice =
      parseRaw "one,two" ++ parseRaw "three" ∧
    (((stringSliceValue.mk [] false).Set "one,two").Set "three").GetSlice =
      ["one", "two", "three"] :=
  replace_set_semantics (stringSliceValue.mk [] false) ["default"] "x"
    "one,two" "three" rfl

/-- One scan step: a double quote toggles the in-quotes state. -/
theorem splitCore_cons_quote (rest cur : List Char) (inQ : Bool) :
    splitCore ('"' :: rest) inQ cur = splitCore rest (!inQ) ('"' :: cur) := by
  simp [splitCore]

/-- One scan step: a comma outside quotes ends the current piece. -/
theorem splitCore_cons_comma (rest cur : List Char) :
    splitCore (',' :: rest) false cur =
      cur.reverse :: splitCore rest false [] := by
  simp [splitCore]

/-- One scan step: any other character is accumulated into the piece. -/
theorem splitCore_cons_other (c : Char) (rest cur : List Char) (inQ : Bool)
    (h1 : c ≠ '"') (h2 : ¬(c = ',' ∧ inQ = false)) :
    splitCore (c :: rest) inQ cur = splitCore rest inQ (c :: cur) := by
  simp only [splitCore, if_neg h1]
  exact if_neg h2

/-- Scanning a quote-free piece while inside quotes accumulates it into
the current element without producing a separator. -/
theorem splitCore_inquote : ∀ (p : List Char), '"' ∉ p →
    ∀ rest cur, splitCore (p ++ rest) true cur =
      splitCore rest true (p.reverse ++ cur) := by
  intro p
  induction p with
  | nil => intro _ rest cur; simp
  | cons c p ih =>
    intro hq rest cur
    have hcq : c ≠ '"' := fun hc => hq (by simp [hc])
    rw [List.cons_append,
      splitCore_cons_other c (p ++ rest) cur true hcq (by simp)]
    rw [ih (fun hm => hq (by simp [hm])) rest (c :: cur)]
    simp [List.append_assoc]

/-- Scanning a quote-free, comma-free piece outside quotes accumulates it
into the current element. -/
theorem splitCore_plain : ∀ (p : List Char), '"' ∉ p → ',' ∉ p →
    ∀ rest cur, splitCore (p ++ rest) false cur =
      splitCore rest false (p.reverse ++ cur) := by
  intro p
  induction p with
  | nil => intro _ _ rest cur; simp
  | cons c p ih =>
    intro hq hc rest cur
    have hcq : c ≠ '"' := fun h => hq (by simp [h])
    have hcc : c ≠ ',' := fun h => hc (by simp [h])
    rw [List.cons_append,
      splitCore_cons_other c (p ++ rest) cur false hcq (by simp [hcc])]
    rw [ih (fun hm => hq (by simp [hm])) (fun hm => hc (by simp [hm])) rest (c :: cur)]
    simp [List.append_assoc]

/-- Scanning one re-quoted element (quoted when it contains a comma)
outside quotes accumulates exactly that element. -/
theorem splitCore_qc (e : List Char) (hq : '"' ∉ e) (rest cur : List Char) :
    splitCore (quoteElemChars e ++ rest) false cur =
      splitCore rest false ((quoteElemChars e).reverse ++ cur) := by
  unfold quoteElemChars
  split
  · have hL : (('"' :: e ++ ['"']) ++ rest : List Char) =
        '"' :: (e ++ ('"' :: rest)) := by simp
    rw [hL, splitCore_cons_quote, Bool.not_false]
    rw [splitCore_inquote e hq ('"' :: rest) ('"' :: cur)]
    rw [splitCore_cons_quote, Bool.not_true]
    congr 1
    simp [List.append_assoc]
  · exact splitCore_plain e hq (by assumption) rest cur

/-- Splitting the comma-join of re-quoted, quote-free elements recovers
exactly the re-quoted elements. -/
theorem splitCore_joinSep : ∀ (ps : List (List Char)), (∀ p ∈ ps, '"' ∉ p) →
    splitCore (joinSep ',' (ps.map quoteElemChars)) false [] =
      if ps = [] then [[]] else ps.map quoteElemChars := by
  intro ps
  induction ps with
  | nil => intro _; simp [joinSep, splitCore]
  | cons e ps ih =>
    intro hq
    have hqe : '"' ∉ e := hq e (by simp)
    rw [if_neg (by simp)]
    cases ps with
    | nil =>
      show splitCore (quoteElemChars e) false [] = [quoteElemChars e]
      have h0 := splitCore_qc e hqe [] []
      rw [List.append_nil] at h0
      rw [h0]
      simp [splitCore]
    | cons e2 ps2 =>
      show splitCore (quoteElemChars e ++
          ',' :: joinSep ',' ((e2 :: ps2).map quoteElemChars)) false [] = _
      rw [splitCore_qc e hqe _ []]
      rw [splitCore_cons_comma]
      have := ih (fun p hp => hq p (by simp [hp]))
      rw [if_neg (by simp)] at this
      rw [this]
      simp

/-- Unwrapping undoes re-quoting on a non-empty, quote-free element. -/
theorem unquote_quote (e : List Char) (hne : e ≠ []) (hq : '"' ∉ e) :
    unquoteChars (quoteElemChars e) = e := by
  unfold quoteElemChars
  split
  · unfold unquoteChars
    rw [if_pos]
    · simp
    · refine ⟨?_, rfl, ?_, ?_⟩
      · simp only [List.length_cons, List.length_append, List.length_singleton]
        omega
      · show (('"' :: e) ++ ['"'] : List Char).getLast? = some '"'
        exact List.getLast?_concat _
      · simp [hq]
  · unfold unquoteChars
    rw [if_neg]
    rintro ⟨-, hhead, -, -⟩
    cases e with
    | nil => exact hne rfl
    | cons c cs =>
      simp only [List.head?_cons, Option.some.injEq] at hhead
      exact hq (by simp [hhead])

/-- A re-quoted non-empty element is non-empty. -/
theorem quoteElemChars_ne_nil (e : List Char) (he : e ≠ []) :
    quoteElemChars e ≠ [] := by
  unfold quoteElemChars
  split
  · simp
  · exact he

/-- A separator-join starting with a non-empty piece is non-empty. -/
theorem joinSep_ne_nil (sep : Char) (x : List Char) (xs : List (List Char))
    (hx : x ≠ []) : joinSep sep (x :: xs) ≠ [] := by
  cases xs with
  | nil => simpa [joinSep] using hx
  | cons y ys => simp [joinSep]

/-- A non-empty string has a non-empty character list. -/
theorem toList_ne_nil (e : String) (h : e ≠ "") : e.toList ≠ [] := by
  intro hl
  apply h
  cases e with
  | mk d =>
    simp only [String.toList] at hl
    subst hl
    rfl

/-- Unwrapping each re-quoted element recovers the original strings. -/
theorem map_unquote_quote : ∀ (vs : List String),
    (∀ e ∈ vs, e ≠ "" ∧ '"' ∉ e.toList) →
    ((vs.map String.toList).map quoteElemChars).map
        (fun cs => String.mk (unquoteChars cs)) = vs := by
  intro vs
  induction vs with
  | nil => intro _; rfl
  | cons e vs ih =>
    intro h
    simp only [List.map_cons]
    rw [unquote_quote e.toList (toList_ne_nil e (h e (by simp)).1) (h e (by simp)).2]
    rw [ih (fun x hx => h x (by simp [hx]))]
    rfl

/-- C5 counterexample: the single-element sequence holding the literal
three-character string "a" with its quotes — non-empty, containing no
comma — renders to that same text, which re-parses to the unquoted
one-character string, so render-then-parse does not restore the original
sequence. -/
theorem roundtrip_counterexample :
    (∀ e ∈ (["\"a\""] : List String), e ≠ "") ∧
    parseRaw (renderLV ["\"a\""]) = ["a"] ∧
    parseRaw (renderLV ["\"a\""]) ≠ ["\"a\""] :=
  ⟨by decide, by decide, by decide⟩

/-- C5 amended: for every sequence of non-empty strings none of which
contain a double-quote character (elements may contain commas), rendering
the ListValue — re-quoting each element containing a comma and joining
with commas — and re-parsing the rendered string yields the original
sequence. -/
theorem render_parse_roundtrip (vs : List String)
    (h : ∀ e ∈ vs, e ≠ "" ∧ '"' ∉ e.toList) :
    parseRaw (renderLV vs) = vs := by
  cases vs with
  | nil => rfl
  | cons e vs' =>
    have hq : ∀ p ∈ (e :: vs').map String.toList, '"' ∉ p := by
      intro p hp
      obtain ⟨x, hx, rfl⟩ := List.mem_map.mp hp
      exact (h x hx).2
    have hne : e.toList ≠ [] := toList_ne_nil e (h e (by simp)).1
    have hnon : (String.mk (joinSep ','
        ((e :: vs').map fun x => quoteElemChars x.toList))).toList ≠ [] := by
      show joinSep ',' ((e :: vs').map fun x => quoteElemChars x.toList) ≠ []
      simp only [List.map_cons]
      exact joinSep_ne_nil ',' _ _ (quoteElemChars_ne_nil _ hne)
    unfold parseRaw renderLV
    rw [if_neg hnon]
    show (splitCore (joinSep ','
        ((e :: vs').map fun x => quoteElemChars x.toList)) false []).map
      (fun cs => String.mk (unquoteChars cs)) = e :: vs'
    have hmap : ((e :: vs').map fun x => quoteElemChars x.toList) =
        ((e :: vs').map String.toList).map quoteElemChars := by
      rw [List.map_map]; rfl
    rw [hmap]
    have hsplit := splitCore_joinSep ((e :: vs').map String.toList) hq
    rw [if_neg (by simp)] at hsplit
    rw [hsplit]
    exact map_unquote_quote (e :: vs') h

/-- C5 amended witness: the round trip at a concrete sequence containing a
comma-bearing element. -/
theorem render_parse_roundtrip_witness :
    parseRaw (renderLV ["one,two", "three"]) = ["one,two", "three"] :=
  render_parse_roundtrip ["one,two", "three"] (by decide)

end Vfkit
